import Mathlib

/-!
Verification of the netcam-aiomeraki device-under-test engine.

This file is a shallow embedding, in Lean 4, of the pieces of the
`netcam_aiomeraki` plugin that the specification's claims are about:

* the memoized API access cache (`MerakiDeviceUnderTest.api_cache_get`);
* the rate-limit retry policy wrapped around the ping-probe calls
  (`retry_on_429`, `_create_ping`, `_check_ping` with tenacity);
* the reachability probe and setup gate (`ping_check`, `setup`);
* the check-collection dispatcher (`execute_checks` single-dispatch chain);
* the VLAN-to-interface correlators of the appliance and switch families
  (`_correlate_vlans_to_ports`, two divergent copies);
* the per-VLAN interface check (`_check_one_vlan`);
* the switch interface check speed conversion (`meraki_to_speed`);
* the plugin entry point (`plugin_get_dut`).

Python values, dictionaries and exceptions are embedded explicitly:
decoded JSON payloads become the inductive `PyVal` with Python truthiness;
dictionaries become association lists; a raised exception becomes the
`.error` branch of `Except`.
-/

namespace NetcamAioMeraki

/-! ## Python value model

A decoded Meraki API payload is an arbitrary JSON-ish Python value.  Only
its identity and its Python truthiness matter to the cache logic.
-/

/-- A decoded Python/JSON value, as handled by the Meraki dashboard client. -/
inductive PyVal where
  | pynone
  | pybool (b : Bool)
  | pyint (i : Int)
  | pystr (s : String)
  | pylist (xs : List PyVal)

/-- Python truthiness of a `PyVal`: `None`, `False`, `0`, `""` and `[]` are
falsy, everything else is truthy. -/
def PyVal.truthy : PyVal → Bool
  | .pynone => false
  | .pybool b => b
  | .pyint i => i != 0
  | .pystr s => s ≠ ""
  | .pylist xs => !xs.isEmpty

/-! ## The API access cache (`MerakiDeviceUnderTest.api_cache_get`)

`self._api_cache` is a Python dict from cache-key strings to payloads.  We
embed it as an insertion-ordered association list with unique keys.
-/

/-- The `_api_cache` dict: cache-key to previously fetched payload. -/
abbrev ApiCache := List (String × PyVal)

/-- `dict.get(key)`: the stored payload, or Python `None` when the key is
absent (this is what `self._api_cache.get(key)` evaluates to). -/
def ApiCache.getPy (c : ApiCache) (k : String) : PyVal :=
  match c.find? (fun e => e.1 = k) with
  | some e => e.2
  | none => .pynone

/-- `dict[key] = v`: replace the entry in place if the key exists, append
otherwise. -/
def ApiCache.setPy (c : ApiCache) (k : String) (v : PyVal) : ApiCache :=
  match c with
  | [] => [(k, v)]
  | e :: rest => if e.1 = k then (k, v) :: rest else e :: ApiCache.setPy rest k v

/-- Result of one `api_cache_get` invocation: the payload handed back to
the caller, the cache afterwards, and whether the remote API was invoked. -/
structure CacheStep where
  payload : PyVal
  cache : ApiCache
  didCall : Bool

/-- `MerakiDeviceUnderTest.api_cache_get(key, call, **kwargs)` under the
cache lock (meraki_dut.py lines 212-225).  The body is
`if not (has_data := self._api_cache.get(key)): has_data = await meth(**kwargs);
self._api_cache[key] = has_data` — a Python *truthiness* test on the cached
entry, then an unconditional store of the fetched payload.  `remote` is the
payload the dashboard API would deliver if invoked; `didCall` records
whether that invocation happened.  The `call` name and kwargs only select
the remote method; they never participate in the cache lookup. -/
def api_cache_get (cache : ApiCache) (key : String) (remote : PyVal) : CacheStep :=
  let has_data := cache.getPy key
  if has_data.truthy then
    ⟨has_data, cache, false⟩
  else
    ⟨remote, cache.setPy key remote, true⟩

/-- One queued cache request: the cache key and the dotted API call name.
The call name is carried only to show it does not discriminate the cache. -/
structure ApiRequest where
  key : String
  call : String

/-- Run a sequence of `api_cache_get` requests against one session cache.
`remote n` is the payload delivered by the `n`-th actual remote invocation
of this session (the session's asyncio lock serializes the requests; the
oracle index advances only when a remote call really happens).  Returns the
payloads handed to each caller, the final cache, and the total number of
remote invocations made. -/
def runApiCalls (remote : Nat → PyVal) :
    List ApiRequest → ApiCache → Nat → List PyVal × ApiCache × Nat
  | [], cache, n => ([], cache, n)
  | r :: rs, cache, n =>
    let step := api_cache_get cache r.key (remote n)
    let n' := if step.didCall then n + 1 else n
    let rest := runApiCalls remote rs step.cache n'
    (step.payload :: rest.1, rest.2)

/-! ## VLAN-to-interface correlators

Both the appliance file (`merkai_appliance_check_vlans.py`) and the switch
file (`meraki_switch_tc_vlans.py`) carry their own copy of
`_correlate_vlans_to_ports`.  The `defaultdict(set)` index becomes an
association list from VLAN id to a `Finset` of interface-name strings.
-/

/-- Port mode, the `"type"` field of a Meraki port record. -/
inductive PortType where
  | access
  | trunk
deriving DecidableEq

/-- The `allowedVlans` field of a trunk port: either the literal string
`"all"`, or a compact range string (e.g. `"1,5,10-12"`) abstracted here by
the list of VLAN ids it denotes. -/
inductive AllowedVlans where
  | all
  | istrange (vs : List Nat)
deriving DecidableEq

/-- Modelled from the spec: `parse_istrange` (netcad.helpers, an external
collaborator not under src/) parses a compact textual range such as
`"1,5,10-12"` into a concrete set of integers.  The literal `"all"` is not
a range string, so parsing it fails (the appliance correlator reaches this
case for a disabled trunk whose `allowedVlans` is `"all"`). -/
def parse_istrange : AllowedVlans → Option (List Nat)
  | .all => none
  | .istrange vs => some vs

/-- A Python `set` of interface-name strings, embedded as the list of its
elements without duplicates (kept in insertion order; all set operations
below are order-insensitive). -/
abbrev StrSet := List String

/-- `set.add(x)`: a no-op when the element is present, append otherwise. -/
def StrSet.addElem (s : StrSet) (x : String) : StrSet :=
  if x ∈ s then s else s ++ [x]

/-- Python `==` on sets: extensional equality, irrespective of element
order. -/
def StrSet.seteq (a b : StrSet) : Prop :=
  (∀ x ∈ a, x ∈ b) ∧ (∀ x ∈ b, x ∈ a)

instance (a b : StrSet) : Decidable (StrSet.seteq a b) :=
  inferInstanceAs (Decidable ((∀ x ∈ a, x ∈ b) ∧ (∀ x ∈ b, x ∈ a)))

/-- The `defaultdict(set)` index: VLAN id to set of interface names, as an
association list with at most one entry per VLAN id. -/
abbrev VlanMap := List (Nat × StrSet)

/-- `map.get(v)`: the interface set, or absent. -/
def VlanMap.get? : VlanMap → Nat → Option StrSet
  | [], _ => none
  | e :: rest, v => if e.1 = v then some e.2 else VlanMap.get? rest v

/-- The set a `defaultdict(set)` read of key `v` yields: the stored set or
the empty set. -/
def VlanMap.defaultGet (m : VlanMap) (v : Nat) : StrSet :=
  (m.get? v).getD []

/-- `map_vlans_to_interfaces[v].add(name)` on a `defaultdict(set)`. -/
def VlanMap.addIf (m : VlanMap) (v : Nat) (name : String) : VlanMap :=
  match m with
  | [] => [(v, [name])]
  | e :: rest =>
    if e.1 = v then (v, e.2.addElem name) :: rest else e :: VlanMap.addIf rest v name

/-- Add one interface name under every VLAN id of a list (the
`for vlan_id in add_vlan_ids: map[vlan_id].add(if_name)` loop). -/
def VlanMap.addAll (m : VlanMap) (vs : List Nat) (name : String) : VlanMap :=
  vs.foldl (fun acc v => acc.addIf v name) m

/-- `del map_vlans_to_interfaces[1]` generalized to any key: drop the
entry (entries) carrying that key. -/
def VlanMap.erase : VlanMap → Nat → VlanMap
  | [], _ => []
  | e :: rest, v => if e.1 = v then VlanMap.erase rest v else e :: VlanMap.erase rest v

namespace Appliance

/-- One appliance (MX) port record as consumed by the appliance correlator:
fields `number`, `enabled`, `type`, `vlan` (via `.get`, so optional),
`allowedVlans` and `dropUntaggedTraffic`. -/
structure MxPort where
  number : Nat
  enabled : Bool
  type : PortType
  vlan : Option Nat
  allowedVlans : AllowedVlans
  dropUntaggedTraffic : Bool
deriving DecidableEq

/-- The interface name used by the appliance correlator:
`if_name = str(if_data["number"])`. -/
def MxPort.ifName (p : MxPort) : String := toString p.number

/-- `if vlan_id := if_data.get("vlan")`: the walrus test is Python
truthiness, so a missing field and a zero value both fail it. -/
def MxPort.truthyVlan (p : MxPort) : Option Nat :=
  match p.vlan with
  | some v => if v = 0 then none else some v
  | none => none

/-- `is_unused_port` of the appliance correlator: disabled, trunk mode and
`dropUntaggedTraffic is True`. -/
def is_unused_port (p : MxPort) : Bool :=
  p.enabled = false ∧ p.type = .trunk ∧ p.dropUntaggedTraffic = true

/-- `if vlan_id := if_data.get("vlan"): map[vlan_id].add(if_name)` — the
native/assigned VLAN bookkeeping done for every non-unused port. -/
def nativeAdd (m : VlanMap) (p : MxPort) : VlanMap :=
  match p.truthyVlan with
  | some v => m.addIf v p.ifName
  | none => m

/-- The `allowedVlans` expansion chosen for a trunk port: the
caller-supplied expected ids when the field is `"all"` *and* the port is
enabled, otherwise whatever `parse_istrange` yields. -/
def trunkVlanIds (expd_vlan_ids : List Nat) (p : MxPort) : Option (List Nat) :=
  if p.allowedVlans = .all ∧ p.enabled = true then some expd_vlan_ids
  else parse_istrange p.allowedVlans

/-- The per-port body of the appliance correlator loop
(merkai_appliance_check_vlans.py lines 117-144): skip unused ports, record
the truthy `vlan` field, stop for access ports, then expand the trunk's
allowed VLANs (failure of the range parse aborts the correlator, hence
`Option`). -/
def correlateStep (expd_vlan_ids : List Nat) (m : VlanMap) (p : MxPort) :
    Option VlanMap :=
  if is_unused_port p then some m
  else
    let m := nativeAdd m p
    if p.type = .access then some m
    else
      match trunkVlanIds expd_vlan_ids p with
      | none => none
      | some add_vlan_ids => some (m.addAll add_vlan_ids p.ifName)

/-- The appliance correlator's main loop, before the VLAN-1 post-pass. -/
def correlatePre (port_configs : List MxPort) (expd_vlan_ids : List Nat) :
    Option VlanMap :=
  port_configs.foldlM (correlateStep expd_vlan_ids) []

/-- The VLAN-1 post-pass (merkai_appliance_check_vlans.py lines 150-157):
if VLAN 1 has a truthy (nonempty) interface set and the number of disabled
port records whose name lies in that set equals the set's size, delete
VLAN 1 from the index. -/
def vlan1PostPass (port_configs : List MxPort) (m : VlanMap) : VlanMap :=
  match VlanMap.get? m 1 with
  | none => m
  | some s =>
    if s = [] then m
    else
      let disabled := port_configs.filter
        (fun p => p.ifName ∈ s ∧ p.enabled = false)
      if disabled.length = s.length then m.erase 1 else m

/-- `_correlate_vlans_to_ports` of the appliance family: the main loop
followed by the VLAN-1 post-pass.  `none` models the `ValueError` escaping
from `parse_istrange`. -/
def correlate_vlans_to_ports (port_configs : List MxPort)
    (expd_vlan_ids : List Nat) : Option VlanMap :=
  (correlatePre port_configs expd_vlan_ids).map (vlan1PostPass port_configs)

end Appliance

namespace Switch

/-- One switch (MS) port record as consumed by the switch correlator:
fields `portId`, `enabled`, `type`, `vlan` (read unconditionally) and
`allowedVlans`. -/
structure MsPort where
  portId : String
  enabled : Bool
  type : PortType
  vlan : Nat
  allowedVlans : AllowedVlans
deriving DecidableEq

/-- `is_unused` of the switch correlator — the MS heuristic: assigned
VLAN 1 and disabled.  (The loop only consults it for access ports.) -/
def is_unused (p : MsPort) : Bool :=
  p.vlan = 1 ∧ p.enabled = false

/-- The per-port body of the switch correlator loop
(meraki_switch_tc_vlans.py lines 131-169), threading the
`all_device_vlans` set and the VLAN index.  An access port that is unused
is skipped; otherwise its `vlan` is recorded.  A trunk port records its
native `vlan` in `all_device_vlans` only, then adds its interface under
the expected ids when `allowedVlans` is `"all"` — with no test of
`enabled` — or under the parsed range otherwise. -/
def correlateStep (expd_vlan_ids : List Nat)
    (acc : Finset Nat × VlanMap) (p : MsPort) : Finset Nat × VlanMap :=
  if p.type = .access then
    if is_unused p then acc
    else (insert p.vlan acc.1, acc.2.addIf p.vlan p.portId)
  else
    let all_device_vlans := insert p.vlan acc.1
    let all_intf_vlans : List Nat :=
      match p.allowedVlans with
      | .all => expd_vlan_ids
      | .istrange vs => vs
    (all_device_vlans ∪ all_intf_vlans.toFinset, acc.2.addAll all_intf_vlans p.portId)

/-- The switch correlator's main loop, before the VLAN-1 post-pass. -/
def correlatePre (port_configs : List MsPort) (expd_vlan_ids : List Nat) :
    Finset Nat × VlanMap :=
  port_configs.foldl (correlateStep expd_vlan_ids) (∅, [])

/-- The VLAN-1 post-pass of the switch correlator
(meraki_switch_tc_vlans.py lines 175-182), matching ports by `portId`. -/
def vlan1PostPass (port_configs : List MsPort) (m : VlanMap) : VlanMap :=
  match VlanMap.get? m 1 with
  | none => m
  | some s =>
    if s = [] then m
    else
      let disabled := port_configs.filter
        (fun p => p.portId ∈ s ∧ p.enabled = false)
      if disabled.length = s.length then m.erase 1 else m

/-- `_correlate_vlans_to_ports` of the switch family: returns the set of
all device VLANs and the VLAN-to-interfaces index after the post-pass. -/
def correlate_vlans_to_ports (port_configs : List MsPort)
    (expd_vlan_ids : List Nat) : Finset Nat × VlanMap :=
  let pre := correlatePre port_configs expd_vlan_ids
  (pre.1, vlan1PostPass port_configs pre.2)

end Switch

/-- Python's `str.startswith`, as a structurally recursive prefix test on
the character lists (kernel-reducible, unlike `String.startsWith`). -/
def pyStartsWith (s pre : String) : Bool :=
  pre.data.isPrefixOf s.data

namespace Appliance

/-- Outcome of `_check_one_vlan`: a pass carrying the measured interface
set, or a field-mismatch failure carrying measurement and expectation.
(The source renders both as sorted lists; the sets carry the content.) -/
inductive VlanCheckOutcome where
  | pass (measurement : StrSet)
  | failFieldMismatch (measurement expected : StrSet)
deriving DecidableEq

/-- `_check_one_vlan` (merkai_appliance_check_vlans.py lines 206-248): the
check id is the VLAN id; expected interface names starting with `"Vlan"`
are dropped; the measured set is the correlator index's `defaultdict`
read for that VLAN id (empty when the id is absent); strict set equality
decides pass versus field-mismatch failure. -/
def check_one_vlan (vlan_id : Nat) (expd_interfaces : List String)
    (vlans_to_intfs : VlanMap) : List VlanCheckOutcome :=
  let expd_if_set : StrSet :=
    expd_interfaces.filter (fun n => ¬ pyStartsWith n "Vlan")
  let msrd_if_set := vlans_to_intfs.defaultGet vlan_id
  if StrSet.seteq msrd_if_set expd_if_set then
    [.pass msrd_if_set]
  else
    [.failFieldMismatch msrd_if_set expd_if_set]

end Appliance

/-! ## Rate-limit retry policy (`retry_on_429` + tenacity)

`_create_ping` and `_check_ping` (meraki_dut.py lines 387-429) are wrapped
in `@retry(retry=retry_on_429, wait=wait_exponential(multiplier=1, min=4,
max=10), stop=stop_after_attempt(5))`.  tenacity (an external collaborator)
runs the call, asks the retry predicate about the outcome, re-raises a
non-retryable failure as-is, sleeps the wait for a retryable one, and
raises `RetryError` once the stop condition holds.
-/

/-- A raised Meraki API error as seen by `retry_on_429`: `status` is
`some code` when the exception has a `status` attribute (`AsyncAPIError`),
`none` when it does not. -/
structure ApiErr where
  status : Option Nat
deriving DecidableEq

/-- `retry_on_429` (meraki_dut.py lines 387-409) applied to a failed
outcome: retry exactly when the exception carries a `status` attribute
equal to 429 (`HTTPStatus.TOO_MANY_REQUESTS`). -/
def retry_on_429 (e : ApiErr) : Bool :=
  match e.status with
  | some code => code = 429
  | none => false

/-- `wait_exponential(multiplier=1, min=4, max=10)` evaluated after the
`attempt`-th attempt (attempts are numbered from 1): `2 ^ attempt`
clamped between the floor 4 and the ceiling 10. -/
def wait_exponential (attempt : Nat) : Nat :=
  max 4 (min (2 ^ attempt) 10)

/-- What a tenacity-wrapped coroutine surfaces to its caller. -/
inductive RetryOutcome (α : Type) where
  | ok (a : α)
  | apiErr (e : ApiErr)
  | retryErr
deriving DecidableEq

/-- The tenacity loop for the policy used on `_create_ping`/`_check_ping`:
`f n` is the outcome of the `n`-th attempt (numbered from 1).  Returns the
surfaced outcome, the number of attempts actually made, and the waits
slept between attempts.  `fuel` only bounds the recursion; with
`fuel = 5 - attempt + 1` the `stop_after_attempt(5)` test fires first. -/
def tenacityGo (f : Nat → Except ApiErr α) : Nat → Nat → RetryOutcome α × Nat × List Nat
  | _, 0 => (.retryErr, 0, [])
  | attempt, fuel + 1 =>
    match f attempt with
    | .ok a => (.ok a, attempt, [])
    | .error e =>
      if retry_on_429 e then
        if 5 ≤ attempt then (.retryErr, attempt, [])
        else
          let rest := tenacityGo f (attempt + 1) fuel
          (rest.1, rest.2.1, wait_exponential attempt :: rest.2.2)
      else (.apiErr e, attempt, [])

/-- One wrapped remote ping-probe invocation under the source's policy:
`retry=retry_on_429`, `wait=wait_exponential(1, 4, 10)`,
`stop=stop_after_attempt(5)`. -/
def retryPingCall (f : Nat → Except ApiErr α) : RetryOutcome α × Nat × List Nat :=
  tenacityGo f 1 5

/-! ## Reachability probe and setup (`ping_check`, `setup`) -/

/-- The result of `ping_check`: the value of `meraki_device_reachable`
afterwards, and the `status` field of the returned payload (initialized to
the `"timeout"` sentinel). -/
structure PingResult where
  reachable : Bool
  status : String
deriving DecidableEq

/-- How one pass of the polling loop ends. -/
inductive PingLoopExit where
  | early (status : String)
  | finished (status : String)
deriving DecidableEq

/-- The `while timeout:` polling loop of `ping_check` (meraki_dut.py lines
442-457).  `polls i` is the outcome of the `i`-th `_check_ping` call after
its own retries: an error (`AsyncAPIError` or `RetryError`) or the polled
status string.  On an error the loop returns early keeping the previous
payload; on `"complete"` it breaks; otherwise it decrements `timeout`. -/
def pingLoop (polls : Nat → Except Unit String) :
    Nat → Nat → String → PingLoopExit
  | 0, _, st => .finished st
  | t + 1, i, st =>
    match polls i with
    | .error _ => .early st
    | .ok st' => if st' = "complete" then .finished st' else pingLoop polls t (i + 1) st'

/-- `MerakiDeviceUnderTest.ping_check` (meraki_dut.py lines 354-468).
`create` is the outcome of `_create_ping` after its retries.  A failure of
either probe call sets `meraki_device_reachable = True` and returns at
once; otherwise the loop runs and reachability is the final status being
`"complete"` or `"ready"` (line 461). -/
def ping_check (create : Except Unit Unit) (polls : Nat → Except Unit String)
    (timeout : Nat := 5) : PingResult :=
  match create with
  | .error _ => ⟨true, "timeout"⟩
  | .ok _ =>
    match pingLoop polls timeout 0 "timeout" with
    | .early st => ⟨true, st⟩
    | .finished st => ⟨st = "complete" ∨ st = "ready", st⟩

/-- The reachability gate at the end of `setup` (meraki_dut.py lines
494-496): raise `RuntimeError("Device fails reachability ping-check")`
when `meraki_device_reachable` is false. -/
def setupReachabilityGate (reachable : Bool) : Except String Unit :=
  if reachable then .ok () else .error "Device fails reachability ping-check"

/-- `setup` from the ping-check stage on: run the probe, then the gate.
Returns the ping payload status when setup proceeds. -/
def setupAfterInventory (create : Except Unit Unit)
    (polls : Nat → Except Unit String) (timeout : Nat := 5) :
    Except String String :=
  let pr := ping_check create polls timeout
  match setupReachabilityGate pr.reachable with
  | .ok _ => .ok pr.status
  | .error msg => .error msg

/-! ## Check dispatcher (`execute_checks`)

Every DUT class carries a `functools.singledispatchmethod` named
`execute_checks`; `register` populates a per-class table keyed by the
check-collection type, and the un-registered default of a product-family
class calls `super().execute_checks`, whose own default returns `None`.
-/

/-- The check-collection kinds (the registered parameter types), plus a
catch-all for any other collection type. -/
inductive CheckKind where
  | deviceInfo
  | interfaces
  | ipaddrs
  | switchports
  | vlans
  | cabling
  | otherKind (name : String)
deriving DecidableEq

/-- The handler coroutines that `register` installs, named after the
source functions. -/
inductive HandlerId where
  | meraki_check_device_info
  | meraki_switch_check_cabling
  | meraki_switch_check_interfaces
  | meraki_switch_check_switchports
  | meraki_switch_check_vlans
deriving DecidableEq

/-- The base-class dispatch table (meraki_dut.py lines 498-528): only the
device-info handler is registered. -/
def base_registry : List (CheckKind × HandlerId) :=
  [(.deviceInfo, .meraki_check_device_info)]

/-- The switch-class dispatch table (meraki_switch_dut.py lines 64-104):
cabling, interfaces, switchports and vlans handlers. -/
def switch_registry : List (CheckKind × HandlerId) :=
  [ (.cabling, .meraki_switch_check_cabling),
    (.interfaces, .meraki_switch_check_interfaces),
    (.switchports, .meraki_switch_check_switchports),
    (.vlans, .meraki_switch_check_vlans) ]

/-- Look a collection kind up in one class's dispatch table. -/
def registryLookup (reg : List (CheckKind × HandlerId)) (k : CheckKind) :
    Option HandlerId :=
  match reg.find? (fun e => e.1 = k) with
  | some e => some e.2
  | none => none

/-- `MerakiDeviceUnderTest.execute_checks` resolution: the registered
handler for the kind, else the default, which returns `None`. -/
def execute_checks_base (k : CheckKind) : Option HandlerId :=
  registryLookup base_registry k

/-- `MerakiSwitchDeviceUnderTest.execute_checks` resolution: the switch
table first; its default defers to `super().execute_checks`, i.e. the
base table, whose default returns `None` (the soft skip). -/
def execute_checks_switch (k : CheckKind) : Option HandlerId :=
  match registryLookup switch_registry k with
  | some h => some h
  | none => execute_checks_base k

/-! ## Plugin entry point (`plugin_get_dut`) -/

/-- The three DUT classes `dut_by_product` can produce. -/
inductive DutClass where
  | applianceDut
  | switchDut
  | wirelessDut
deriving DecidableEq

/-- `dut_by_product` (plugin_get_dut.py lines 41-45). -/
def dut_by_product : List (String × DutClass) :=
  [("MX", .applianceDut), ("MS", .switchDut), ("MR", .wirelessDut)]

/-- `plugin_get_dut` (plugin_get_dut.py lines 48-72): raise `RuntimeError`
unless `os_name == "meraki"`; otherwise look `product_model[0:2]` up in
`dut_by_product`, returning `None` on a miss and a constructed DUT of the
matched class otherwise. -/
def plugin_get_dut (os_name product_model : String) :
    Except String (Option DutClass) :=
  if os_name ≠ "meraki" then
    .error ("Missing required DUT class for device, os_name: " ++ os_name)
  else
    match (dut_by_product.find? (fun e => e.1 = product_model.take 2)) with
    | some e => .ok (some e.2)
    | none => .ok none

/-! ## Switch interface check (`meraki_switch_check_interfaces`) -/

namespace Switch

/-- `PhyPortSpeeds.speed_1G` (netcad): 1 Gbps in Mbps units. -/
def speed_1G : Nat := 1000

/-- `PhyPortSpeeds.speed_100M` (netcad): 100 Mbps in Mbps units. -/
def speed_100M : Nat := 100

/-- `meraki_to_speed` (meraki_switch_check_interfaces.py lines 105-120):
a falsy (empty) speed string maps to 0; `"1 Gbps"` and `"100 Mbps"` map to
the design speeds; anything else raises `RuntimeError`. -/
def meraki_to_speed (speed_str : String) : Except String Nat :=
  if speed_str = "" then .ok 0
  else if speed_str = "1 Gbps" then .ok speed_1G
  else if speed_str = "100 Mbps" then .ok speed_100M
  else .error ("Unknown Meraki speed converstion for: " ++ speed_str)

/-- One record of the switch port-status API payload, with the fields the
interface check reads. -/
structure MsPortStatus where
  portId : String
  enabled : Bool
  status : String
  speed : String
deriving DecidableEq

/-- `SwitchInterfaceMeasurement` (lines 123-140). -/
structure SwitchInterfaceMeasurement where
  used : Bool
  oper_up : Bool
  speed : Nat
deriving DecidableEq

/-- `SwitchInterfaceMeasurement.from_api`: `used` is `enabled is True`,
`oper_up` is `status == "Connected"`, and the speed conversion may raise. -/
def measurement_from_api (st : MsPortStatus) :
    Except String SwitchInterfaceMeasurement :=
  match meraki_to_speed st.speed with
  | .error msg => .error msg
  | .ok spd => .ok ⟨st.enabled, st.status = "Connected", spd⟩

/-- The `map_port_status` dict comprehension (lines 64-67), evaluated
record by record: a raise while converting any record aborts the whole
construction. -/
def build_map_port_status : List MsPortStatus →
    Except String (List (String × SwitchInterfaceMeasurement))
  | [] => .ok []
  | st :: rest =>
    match measurement_from_api st with
    | .error msg => .error msg
    | .ok m =>
      match build_map_port_status rest with
      | .error msg => .error msg
      | .ok tail => .ok ((st.portId, m) :: tail)

/-- One design-side interface check of the `interfaces` collection, with
the fields the switch handler reads. -/
structure InterfaceCheck where
  ifName : String
  isReserved : Bool
  usedExpd : Bool
  operUpExpd : Bool
  speedExpd : Nat
deriving DecidableEq

/-- The result variants the switch interface check can emit. -/
inductive IfaceCheckOutcome where
  | failNoExists (ifName : String)
  | infoReserved (ifName : String) (m : SwitchInterfaceMeasurement)
  | failField (ifName field : String)
  | passIface (ifName : String) (m : SwitchInterfaceMeasurement)
deriving DecidableEq

/-- `meraki_check_switch_one_interface` (lines 143-211): reserved
interfaces yield one info result; otherwise compare `used`, and when the
design says used also compare `oper_up` and `speed`. -/
def check_switch_one_interface (check : InterfaceCheck)
    (m : SwitchInterfaceMeasurement) : List IfaceCheckOutcome :=
  if check.isReserved then [.infoReserved check.ifName m]
  else
    let r1 : List IfaceCheckOutcome :=
      if check.usedExpd ≠ m.used then [.failField check.ifName "used"] else []
    if check.usedExpd = false then r1
    else
      let r2 := r1 ++
        (if check.operUpExpd ≠ m.oper_up then [.failField check.ifName "oper_up"] else [])
      r2 ++ (if check.speedExpd ≠ m.speed then [.failField check.ifName "speed"] else [])

/-- Whether a result list contains a `CheckFailResult`. -/
def hasFail (rs : List IfaceCheckOutcome) : Bool :=
  rs.any (fun r => match r with | .failField _ _ => true | _ => false)

/-- The per-check loop body (lines 71-92): a missing interface yields one
`CheckFailNoExists`; otherwise the one-interface results, with a pass
appended when none of them is a failure. -/
def checkOneIface (map_port_status : List (String × SwitchInterfaceMeasurement))
    (check : InterfaceCheck) : List IfaceCheckOutcome :=
  match map_port_status.find? (fun e => e.1 = check.ifName) with
  | none => [.failNoExists check.ifName]
  | some e =>
    let rs := check_switch_one_interface check e.2
    if hasFail rs then rs else rs ++ [.passIface check.ifName e.2]

/-- `meraki_switch_check_interfaces` (lines 54-95): build the measurement
map — which aborts the whole collection if any speed string is
unrecognized — then run every check against it. -/
def meraki_switch_check_interfaces (status_list : List MsPortStatus)
    (checks : List InterfaceCheck) : Except String (List IfaceCheckOutcome) :=
  match build_map_port_status status_list with
  | .error msg => .error msg
  | .ok map_port_status => .ok (checks.flatMap (checkOneIface map_port_status))

end Switch

/-! ## Helper lemmas on the set and VLAN-index models -/

theorem StrSet.mem_addElem {s : StrSet} {n x : String} :
    x ∈ s.addElem n ↔ x = n ∨ x ∈ s := by
  by_cases h : n ∈ s
  · simp only [StrSet.addElem, if_pos h]
    constructor
    · exact Or.inr
    · rintro (rfl | hx)
      · exact h
      · exact hx
  · simp [StrSet.addElem, h, List.mem_append, or_comm]

theorem StrSet.addElem_ne_nil (s : StrSet) (n : String) : s.addElem n ≠ [] := by
  by_cases h : n ∈ s
  · simp only [StrSet.addElem, if_pos h]
    intro hc
    subst hc
    exact absurd h (List.not_mem_nil n)
  · simp only [StrSet.addElem, if_neg h]
    intro hc
    exact absurd (List.append_eq_nil.mp hc).2 (by simp)

theorem StrSet.addElem_idem (s : StrSet) (n : String) :
    (s.addElem n).addElem n = s.addElem n := by
  have h : n ∈ s.addElem n := StrSet.mem_addElem.mpr (Or.inl rfl)
  rw [show (s.addElem n).addElem n
      = if n ∈ s.addElem n then s.addElem n else s.addElem n ++ [n] from rfl,
    if_pos h]

theorem StrSet.nodup_addElem {s : StrSet} (hs : s.Nodup) (n : String) :
    (s.addElem n).Nodup := by
  by_cases h : n ∈ s
  · simpa [StrSet.addElem, h] using hs
  · simp [StrSet.addElem, h, List.nodup_append, hs]

theorem StrSet.seteq_nil_iff (s : StrSet) : StrSet.seteq s [] ↔ s = [] := by
  constructor
  · rintro ⟨h1, _⟩
    cases s with
    | nil => rfl
    | cons a rest => exact absurd (h1 a (List.mem_cons_self a rest)) (List.not_mem_nil a)
  · rintro rfl
    exact ⟨fun x hx => hx, fun x hx => hx⟩

theorem VlanMap.get?_addIf (m : VlanMap) (v : Nat) (name : String) (w : Nat) :
    (m.addIf v name).get? w =
      if w = v then some ((m.defaultGet v).addElem name) else m.get? w := by
  induction m with
  | nil =>
    by_cases h : w = v
    · subst h; simp [VlanMap.addIf, VlanMap.get?, VlanMap.defaultGet, StrSet.addElem]
    · simp [VlanMap.addIf, VlanMap.get?, VlanMap.defaultGet, h, Ne.symm h]
  | cons e rest ih =>
    by_cases he : e.1 = v
    · by_cases hw : w = v
      · subst hw
        simp [VlanMap.addIf, VlanMap.get?, VlanMap.defaultGet, he]
      · have hvw : ¬ v = w := Ne.symm hw
        have hew : ¬ e.1 = w := he ▸ hvw
        simp [VlanMap.addIf, VlanMap.get?, he, hw, hew, hvw]
    · by_cases hw : w = v
      · subst hw
        have hew : ¬ e.1 = w := he
        simp [VlanMap.addIf, VlanMap.get?, VlanMap.defaultGet, he, hew, ih]
      · by_cases hew : e.1 = w <;>
          simp [VlanMap.addIf, VlanMap.get?, he, hew, hw, ih]

theorem VlanMap.defaultGet_addIf (m : VlanMap) (v : Nat) (name : String) (w : Nat) :
    (m.addIf v name).defaultGet w =
      if w = v then (m.defaultGet v).addElem name else m.defaultGet w := by
  by_cases h : w = v <;>
    simp [VlanMap.defaultGet, VlanMap.get?_addIf, h]

theorem VlanMap.get?_addAll (m : VlanMap) (vs : List Nat) (name : String) (w : Nat) :
    (m.addAll vs name).get? w =
      if w ∈ vs then some ((m.defaultGet w).addElem name) else m.get? w := by
  induction vs generalizing m with
  | nil => simp [VlanMap.addAll]
  | cons v vs ih =>
    have hstep : (m.addAll (v :: vs) name) = ((m.addIf v name).addAll vs name) := by
      simp [VlanMap.addAll]
    rw [hstep, ih]
    by_cases hmem : w ∈ vs
    · simp only [hmem, if_true, List.mem_cons, or_true, if_true]
      rw [VlanMap.defaultGet_addIf]
      by_cases hwv : w = v
      · subst hwv; simp [StrSet.addElem_idem]
      · simp [hwv]
    · rw [VlanMap.get?_addIf]
      by_cases hwv : w = v
      · subst hwv; simp [hmem]
      · simp [hmem, hwv]

theorem VlanMap.defaultGet_addAll (m : VlanMap) (vs : List Nat) (name : String)
    (w : Nat) :
    (m.addAll vs name).defaultGet w =
      if w ∈ vs then (m.defaultGet w).addElem name else m.defaultGet w := by
  by_cases h : w ∈ vs <;> simp [VlanMap.defaultGet, VlanMap.get?_addAll, h]

theorem VlanMap.mem_defaultGet_addIf {m : VlanMap} {v : Nat} {name : String}
    {w : Nat} {x : String} (hx : x ∈ (m.addIf v name).defaultGet w) :
    x = name ∨ x ∈ m.defaultGet w := by
  rw [VlanMap.defaultGet_addIf] at hx
  by_cases h : w = v
  · rw [if_pos h] at hx
    rcases StrSet.mem_addElem.mp hx with h1 | h1
    · exact Or.inl h1
    · subst h; exact Or.inr h1
  · rw [if_neg h] at hx
    exact Or.inr hx

theorem VlanMap.mem_defaultGet_addAll {m : VlanMap} {vs : List Nat}
    {name : String} {w : Nat} {x : String}
    (hx : x ∈ (m.addAll vs name).defaultGet w) :
    x = name ∨ x ∈ m.defaultGet w := by
  rw [VlanMap.defaultGet_addAll] at hx
  by_cases h : w ∈ vs
  · rw [if_pos h] at hx
    exact StrSet.mem_addElem.mp hx
  · rw [if_neg h] at hx
    exact Or.inr hx

theorem VlanMap.nonnil_addIf {m : VlanMap} {v : Nat} {name : String}
    (inv : ∀ w s, m.get? w = some s → s ≠ []) :
    ∀ w s, (m.addIf v name).get? w = some s → s ≠ [] := by
  intro w s hs
  rw [VlanMap.get?_addIf] at hs
  by_cases h : w = v
  · rw [if_pos h] at hs
    cases hs
    exact StrSet.addElem_ne_nil _ _
  · rw [if_neg h] at hs
    exact inv w s hs

theorem VlanMap.nonnil_addAll {m : VlanMap} {vs : List Nat} {name : String}
    (inv : ∀ w s, m.get? w = some s → s ≠ []) :
    ∀ w s, (m.addAll vs name).get? w = some s → s ≠ [] := by
  intro w s hs
  rw [VlanMap.get?_addAll] at hs
  by_cases h : w ∈ vs
  · rw [if_pos h] at hs
    cases hs
    exact StrSet.addElem_ne_nil _ _
  · rw [if_neg h] at hs
    exact inv w s hs

theorem VlanMap.nodup_addIf {m : VlanMap} {v : Nat} {name : String}
    (inv : ∀ w s, m.get? w = some s → s.Nodup) :
    ∀ w s, (m.addIf v name).get? w = some s → s.Nodup := by
  intro w s hs
  rw [VlanMap.get?_addIf] at hs
  by_cases h : w = v
  · rw [if_pos h] at hs
    cases hs
    apply StrSet.nodup_addElem
    rw [VlanMap.defaultGet]
    cases hg : m.get? v with
    | none => simp
    | some s' => simpa using inv v s' hg
  · rw [if_neg h] at hs
    exact inv w s hs

theorem VlanMap.nodup_addAll {m : VlanMap} {vs : List Nat} {name : String}
    (inv : ∀ w s, m.get? w = some s → s.Nodup) :
    ∀ w s, (m.addAll vs name).get? w = some s → s.Nodup := by
  intro w s hs
  rw [VlanMap.get?_addAll] at hs
  by_cases h : w ∈ vs
  · rw [if_pos h] at hs
    cases hs
    apply StrSet.nodup_addElem
    rw [VlanMap.defaultGet]
    cases hg : m.get? w with
    | none => simp
    | some s' => simpa using inv w s' hg
  · rw [if_neg h] at hs
    exact inv w s hs

theorem VlanMap.get?_erase (m : VlanMap) (v : Nat) (w : Nat) :
    (m.erase v).get? w = if w = v then none else m.get? w := by
  induction m with
  | nil => by_cases h : w = v <;> simp [VlanMap.erase, VlanMap.get?, h]
  | cons e rest ih =>
    by_cases he : e.1 = v
    · by_cases hw : w = v
      · subst hw; simp [VlanMap.erase, he, ih]
      · have hew : ¬ e.1 = w := fun hc => hw (by rw [← hc, he])
        simp [VlanMap.erase, he, hw, Ne.symm hw, hew, ih, VlanMap.get?]
    · by_cases hew : e.1 = w
      · have hw : ¬ w = v := fun hc => he (by rw [hew, hc])
        simp [VlanMap.erase, he, hew, hw, VlanMap.get?]
      · by_cases hw : w = v
        · subst hw; simp [VlanMap.erase, he, hew, ih, VlanMap.get?]
        · simp [VlanMap.erase, he, hew, hw, ih, VlanMap.get?]

/-- Counting argument behind the VLAN-1 post-pass: when port names are
pairwise distinct, the set has no duplicates, every member of the set is
some port's name, and every port named in the set is disabled, the
`disabled` comprehension has exactly as many entries as the set. -/
theorem length_filter_eq_card {α : Type} (ports : List α) (nm : α → String)
    (en : α → Bool) (s : StrSet)
    (hnd : (ports.map nm).Nodup) (hsnd : s.Nodup)
    (hsub : ∀ x ∈ s, ∃ p ∈ ports, nm p = x)
    (hdis : ∀ p ∈ ports, nm p ∈ s → en p = false) :
    (ports.filter (fun p => decide (nm p ∈ s ∧ en p = false))).length
      = s.length := by
  have h1 : ports.filter (fun p => decide (nm p ∈ s ∧ en p = false))
      = ports.filter (fun p => decide (nm p ∈ s)) := by
    apply List.filter_congr
    intro p hp
    by_cases hmem : nm p ∈ s
    · simp [hmem, hdis p hp hmem]
    · simp [hmem]
  have h2 : (ports.map nm).filter (fun x => decide (x ∈ s))
      = (ports.filter (fun p => decide (nm p ∈ s))).map nm := by
    rw [List.filter_map]
    rfl
  have hfn : ((ports.map nm).filter (fun x => decide (x ∈ s))).Nodup :=
    hnd.filter _
  have h3 : ((ports.map nm).filter (fun x => decide (x ∈ s))).toFinset
      = s.toFinset := by
    ext x
    simp only [List.mem_toFinset, List.mem_filter, decide_eq_true_eq]
    constructor
    · rintro ⟨_, hx⟩; exact hx
    · intro hx
      obtain ⟨p, hp, hpx⟩ := hsub x hx
      exact ⟨List.mem_map.mpr ⟨p, hp, hpx⟩, hx⟩
  rw [h1]
  have h4 := List.toFinset_card_of_nodup hfn
  rw [h3, List.toFinset_card_of_nodup hsnd] at h4
  rw [h4, h2, List.length_map]

namespace Appliance

theorem mem_defaultGet_nativeAdd {m₀ : VlanMap} {p : MxPort} {w : Nat}
    {x : String} (hx : x ∈ (nativeAdd m₀ p).defaultGet w) :
    x = p.ifName ∨ x ∈ m₀.defaultGet w := by
  unfold nativeAdd at hx
  cases hv : p.truthyVlan with
  | none => rw [hv] at hx; exact Or.inr hx
  | some v => rw [hv] at hx; exact VlanMap.mem_defaultGet_addIf hx

theorem nonnil_nativeAdd {m₀ : VlanMap} {p : MxPort}
    (inv : ∀ w s, m₀.get? w = some s → s ≠ []) :
    ∀ w s, (nativeAdd m₀ p).get? w = some s → s ≠ [] := by
  unfold nativeAdd
  cases hv : p.truthyVlan with
  | none => exact inv
  | some v => exact VlanMap.nonnil_addIf inv

theorem correlateStep_mem {expd : List Nat} {m₀ : VlanMap} {p : MxPort}
    {m₁ : VlanMap} (h : correlateStep expd m₀ p = some m₁) {w : Nat}
    {x : String} (hx : x ∈ m₁.defaultGet w) :
    x = p.ifName ∨ x ∈ m₀.defaultGet w := by
  unfold correlateStep at h
  split at h
  · cases h; exact Or.inr hx
  · split at h
    · cases h; exact mem_defaultGet_nativeAdd hx
    · split at h
      · exact Option.noConfusion h
      · cases h
        rcases VlanMap.mem_defaultGet_addAll hx with h1 | h1
        · exact Or.inl h1
        · exact mem_defaultGet_nativeAdd h1

theorem correlateStep_nonnil {expd : List Nat} {m₀ : VlanMap} {p : MxPort}
    {m₁ : VlanMap} (h : correlateStep expd m₀ p = some m₁)
    (inv : ∀ w s, m₀.get? w = some s → s ≠ []) :
    ∀ w s, m₁.get? w = some s → s ≠ [] := by
  unfold correlateStep at h
  split at h
  · cases h; exact inv
  · split at h
    · cases h; exact nonnil_nativeAdd inv
    · split at h
      · exact Option.noConfusion h
      · cases h; exact VlanMap.nonnil_addAll (nonnil_nativeAdd inv)

theorem nodup_nativeAdd {m₀ : VlanMap} {p : MxPort}
    (inv : ∀ w s, m₀.get? w = some s → s.Nodup) :
    ∀ w s, (nativeAdd m₀ p).get? w = some s → s.Nodup := by
  unfold nativeAdd
  cases hv : p.truthyVlan with
  | none => exact inv
  | some v => exact VlanMap.nodup_addIf inv

theorem correlateStep_nodup {expd : List Nat} {m₀ : VlanMap} {p : MxPort}
    {m₁ : VlanMap} (h : correlateStep expd m₀ p = some m₁)
    (inv : ∀ w s, m₀.get? w = some s → s.Nodup) :
    ∀ w s, m₁.get? w = some s → s.Nodup := by
  unfold correlateStep at h
  split at h
  · cases h; exact inv
  · split at h
    · cases h; exact nodup_nativeAdd inv
    · split at h
      · exact Option.noConfusion h
      · cases h; exact VlanMap.nodup_addAll (nodup_nativeAdd inv)

theorem correlateFold_nodup :
    ∀ (ports : List MxPort) (expd : List Nat) (m₀ m : VlanMap),
    List.foldlM (correlateStep expd) m₀ ports = some m →
    (∀ w s, m₀.get? w = some s → s.Nodup) →
    ∀ w s, m.get? w = some s → s.Nodup := by
  intro ports
  induction ports with
  | nil =>
    intro expd m₀ m h inv
    have hm : m₀ = m := Option.some_inj.mp h
    subst hm
    exact inv
  | cons p rest ih =>
    intro expd m₀ m h inv
    rw [List.foldlM_cons] at h
    cases hstep : correlateStep expd m₀ p with
    | none => rw [hstep] at h; exact Option.noConfusion h
    | some m₁ =>
      rw [hstep] at h
      exact ih expd m₁ m (by exact h) (correlateStep_nodup hstep inv)

theorem correlateFold_mem :
    ∀ (ports : List MxPort) (expd : List Nat) (m₀ m : VlanMap),
    List.foldlM (correlateStep expd) m₀ ports = some m →
    ∀ w x, x ∈ m.defaultGet w →
      x ∈ m₀.defaultGet w ∨ ∃ p ∈ ports, p.ifName = x := by
  intro ports
  induction ports with
  | nil =>
    intro expd m₀ m h w x hx
    have hm : m₀ = m := Option.some_inj.mp h
    subst hm
    exact Or.inl hx
  | cons p rest ih =>
    intro expd m₀ m h w x hx
    rw [List.foldlM_cons] at h
    cases hstep : correlateStep expd m₀ p with
    | none => rw [hstep] at h; exact Option.noConfusion h
    | some m₁ =>
      rw [hstep] at h
      rcases ih expd m₁ m (by exact h) w x hx with h1 | ⟨q, hq, hqx⟩
      · rcases correlateStep_mem hstep h1 with h2 | h2
        · exact Or.inr ⟨p, List.mem_cons_self p rest, h2.symm⟩
        · exact Or.inl h2
      · exact Or.inr ⟨q, List.mem_cons_of_mem p hq, hqx⟩

theorem correlateFold_nonnil :
    ∀ (ports : List MxPort) (expd : List Nat) (m₀ m : VlanMap),
    List.foldlM (correlateStep expd) m₀ ports = some m →
    (∀ w s, m₀.get? w = some s → s ≠ []) →
    ∀ w s, m.get? w = some s → s ≠ [] := by
  intro ports
  induction ports with
  | nil =>
    intro expd m₀ m h inv
    have hm : m₀ = m := Option.some_inj.mp h
    subst hm
    exact inv
  | cons p rest ih =>
    intro expd m₀ m h inv
    rw [List.foldlM_cons] at h
    cases hstep : correlateStep expd m₀ p with
    | none => rw [hstep] at h; exact Option.noConfusion h
    | some m₁ =>
      rw [hstep] at h
      exact ih expd m₁ m (by exact h) (correlateStep_nonnil hstep inv)

end Appliance

namespace Switch

theorem correlateStepMs_mem {expd : List Nat} {acc : Finset Nat × VlanMap}
    {p : MsPort} {w : Nat} {x : String}
    (hx : x ∈ (correlateStep expd acc p).2.defaultGet w) :
    x = p.portId ∨ x ∈ acc.2.defaultGet w := by
  unfold correlateStep at hx
  split at hx
  · split at hx
    · exact Or.inr hx
    · exact VlanMap.mem_defaultGet_addIf hx
  · exact VlanMap.mem_defaultGet_addAll hx

theorem correlateStepMs_nonnil {expd : List Nat} {acc : Finset Nat × VlanMap}
    {p : MsPort}
    (inv : ∀ w s, acc.2.get? w = some s → s ≠ []) :
    ∀ w s, (correlateStep expd acc p).2.get? w = some s → s ≠ [] := by
  unfold correlateStep
  split
  · split
    · exact inv
    · exact VlanMap.nonnil_addIf inv
  · exact VlanMap.nonnil_addAll inv

theorem correlateStepMs_nodup {expd : List Nat} {acc : Finset Nat × VlanMap}
    {p : MsPort}
    (inv : ∀ w s, acc.2.get? w = some s → s.Nodup) :
    ∀ w s, (correlateStep expd acc p).2.get? w = some s → s.Nodup := by
  unfold correlateStep
  split
  · split
    · exact inv
    · exact VlanMap.nodup_addIf inv
  · exact VlanMap.nodup_addAll inv

theorem correlateFoldMs_nodup :
    ∀ (ports : List MsPort) (expd : List Nat) (acc : Finset Nat × VlanMap),
    (∀ w s, acc.2.get? w = some s → s.Nodup) →
    ∀ w s, (List.foldl (correlateStep expd) acc ports).2.get? w = some s →
      s.Nodup := by
  intro ports
  induction ports with
  | nil => intro expd acc inv; exact inv
  | cons p rest ih =>
    intro expd acc inv
    rw [List.foldl_cons]
    exact ih expd (correlateStep expd acc p) (correlateStepMs_nodup inv)

theorem correlateFoldMs_mem :
    ∀ (ports : List MsPort) (expd : List Nat) (acc : Finset Nat × VlanMap),
    ∀ w x, x ∈ (List.foldl (correlateStep expd) acc ports).2.defaultGet w →
      x ∈ acc.2.defaultGet w ∨ ∃ p ∈ ports, p.portId = x := by
  intro ports
  induction ports with
  | nil => intro expd acc w x hx; exact Or.inl hx
  | cons p rest ih =>
    intro expd acc w x hx
    rw [List.foldl_cons] at hx
    rcases ih expd (correlateStep expd acc p) w x hx with h1 | ⟨q, hq, hqx⟩
    · rcases correlateStepMs_mem h1 with h2 | h2
      · exact Or.inr ⟨p, List.mem_cons_self p rest, h2.symm⟩
      · exact Or.inl h2
    · exact Or.inr ⟨q, List.mem_cons_of_mem p hq, hqx⟩

theorem correlateFoldMs_nonnil :
    ∀ (ports : List MsPort) (expd : List Nat) (acc : Finset Nat × VlanMap),
    (∀ w s, acc.2.get? w = some s → s ≠ []) →
    ∀ w s, (List.foldl (correlateStep expd) acc ports).2.get? w = some s →
      s ≠ [] := by
  intro ports
  induction ports with
  | nil => intro expd acc inv; exact inv
  | cons p rest ih =>
    intro expd acc inv
    rw [List.foldl_cons]
    exact ih expd (correlateStep expd acc p) (correlateStepMs_nonnil inv)

end Switch

/-! ## Probe-loop helper lemmas -/

/-- If the `k`-th poll fails and every earlier poll returns a
non-`"complete"` status, the loop exits early (the exception path). -/
theorem pingLoop_early (polls : Nat → Except Unit String) :
    ∀ (k t i : Nat) (st : String), k < t → polls (i + k) = .error () →
    (∀ j, j < k → ∃ s, polls (i + j) = .ok s ∧ s ≠ "complete") →
    ∃ st', pingLoop polls t i st = .early st' := by
  intro k
  induction k with
  | zero =>
    intro t i st hk herr _
    obtain ⟨t', rfl⟩ : ∃ t', t = t' + 1 := ⟨t - 1, by omega⟩
    rw [Nat.add_zero] at herr
    refine ⟨st, ?_⟩
    simp [pingLoop, herr]
  | succ k ih =>
    intro t i st hk herr hpre
    obtain ⟨t', rfl⟩ : ∃ t', t = t' + 1 := ⟨t - 1, by omega⟩
    obtain ⟨s0, hs0, hs0ne⟩ := hpre 0 (Nat.succ_pos k)
    rw [Nat.add_zero] at hs0
    have hrec := ih t' (i + 1) s0 (by omega)
      (by rw [show i + 1 + k = i + (k + 1) by omega]; exact herr)
      (by
        intro j hj
        have h := hpre (j + 1) (by omega)
        rw [show i + (j + 1) = i + 1 + j by omega] at h
        exact h)
    obtain ⟨st', hst'⟩ := hrec
    refine ⟨st', ?_⟩
    simp [pingLoop, hs0, hs0ne, hst']

/-- If every poll succeeds, the loop never takes the exception path. -/
theorem pingLoop_finished (polls : Nat → Except Unit String) (s : Nat → String)
    (hok : ∀ i, polls i = .ok (s i)) :
    ∀ (t i : Nat) (st : String), ∃ st', pingLoop polls t i st = .finished st' := by
  intro t
  induction t with
  | zero => intro i st; exact ⟨st, rfl⟩
  | succ t ih =>
    intro i st
    by_cases hc : s i = "complete"
    · refine ⟨s i, ?_⟩
      simp [pingLoop, hok i, hc]
    · obtain ⟨st', hst'⟩ := ih (i + 1) (s i)
      refine ⟨st', ?_⟩
      simp [pingLoop, hok i, hc, hst']

/-! ## Interface-check helper lemmas -/

namespace Switch

theorem measurement_from_api_error {st : MsPortStatus}
    (h1 : st.speed ≠ "") (h2 : st.speed ≠ "1 Gbps") (h3 : st.speed ≠ "100 Mbps") :
    ∃ msg, measurement_from_api st = .error msg := by
  refine ⟨"Unknown Meraki speed converstion for: " ++ st.speed, ?_⟩
  simp [measurement_from_api, meraki_to_speed, h1, h2, h3]

theorem build_map_port_status_error :
    ∀ (l : List MsPortStatus) (st : MsPortStatus), st ∈ l →
    (∃ msg, measurement_from_api st = .error msg) →
    ∃ msg, build_map_port_status l = .error msg := by
  intro l
  induction l with
  | nil => intro st hmem; exact absurd hmem (List.not_mem_nil st)
  | cons a rest ih =>
    intro st hmem herr
    rcases List.mem_cons.mp hmem with rfl | hmem'
    · obtain ⟨msg, hm⟩ := herr
      exact ⟨msg, by simp [build_map_port_status, hm]⟩
    · cases ha : measurement_from_api a with
      | error msg => exact ⟨msg, by simp [build_map_port_status, ha]⟩
      | ok m =>
        obtain ⟨msg, hm⟩ := ih st hmem' herr
        exact ⟨msg, by simp [build_map_port_status, ha, hm]⟩

end Switch

/-! ## Claim theorems -/

/-- C5: a wrapped remote ping-probe invocation that always fails with a
status-429 error is attempted exactly 5 times, with the clamped
exponentially growing waits 4, 4, 8, 10 slept between attempts, and then
surfaces the retry-exhausted outcome, which is distinct from any
underlying API error; an invocation whose first failure is not a
status-429 error is attempted exactly once and that error propagates. -/
theorem claim_C5 :
    (∀ (f : Nat → Except ApiErr Unit) (e : ApiErr),
      (∀ n, f n = .error e) → e.status = some 429 →
      retryPingCall f =
        (.retryErr, 5, [wait_exponential 1, wait_exponential 2,
          wait_exponential 3, wait_exponential 4])
      ∧ [wait_exponential 1, wait_exponential 2, wait_exponential 3,
          wait_exponential 4] = [4, 4, 8, 10]
      ∧ (∀ e' : ApiErr, (RetryOutcome.retryErr : RetryOutcome Unit) ≠ .apiErr e'))
    ∧ (∀ (f : Nat → Except ApiErr Unit) (e : ApiErr),
      f 1 = .error e → retry_on_429 e = false →
      retryPingCall f = (.apiErr e, 1, [])) := by
  constructor
  · intro f e hf h429
    have hr : retry_on_429 e = true := by simp [retry_on_429, h429]
    refine ⟨?_, by decide, ?_⟩
    · simp [retryPingCall, tenacityGo, hf 1, hf 2, hf 3, hf 4, hf 5, hr]
    · intro e' hc
      exact RetryOutcome.noConfusion hc
  · intro f e hf hr
    simp [retryPingCall, tenacityGo, hf, hr]

/-- Witness for C5: the concrete always-429 call makes 5 attempts with
waits 4, 4, 8, 10 and surfaces the retry-exhausted outcome; the concrete
status-500 call makes exactly one attempt and propagates the error. -/
theorem claim_C5_witness :
    retryPingCall (fun _ => (.error ⟨some 429⟩ : Except ApiErr Unit))
      = (.retryErr, 5, [4, 4, 8, 10])
    ∧ retryPingCall (fun _ => (.error ⟨some 500⟩ : Except ApiErr Unit))
      = (.apiErr ⟨some 500⟩, 1, []) := by
  constructor
  · have h := claim_C5.1 (fun _ => .error ⟨some 429⟩) ⟨some 429⟩ (fun _ => rfl) rfl
    rw [h.1, h.2.1]
  · exact claim_C5.2 (fun _ => .error ⟨some 500⟩) ⟨some 500⟩ rfl (by decide)

/-- C6: a check-collection kind registered neither on the product-family
dispatch table nor on the base table resolves to `None` (soft skip, no
raise); the device-info kind, registered only on the base table, resolves
through the switch session to the base handler, not to the skip. -/
theorem claim_C6 :
    (∀ k : CheckKind,
      registryLookup switch_registry k = none →
      registryLookup base_registry k = none →
      execute_checks_switch k = none)
    ∧ registryLookup switch_registry .deviceInfo = none
    ∧ execute_checks_switch .deviceInfo = some .meraki_check_device_info
    ∧ execute_checks_base .deviceInfo = some .meraki_check_device_info := by
  refine ⟨?_, by decide, by decide, by decide⟩
  intro k h1 h2
  simp [execute_checks_switch, execute_checks_base, h1, h2]

/-- Witness for C6: a kind registered nowhere (e.g. transceivers) resolves
to the soft skip through the switch session. -/
theorem claim_C6_witness :
    execute_checks_switch (.otherKind "transceivers") = none :=
  claim_C6.1 (.otherKind "transceivers") (by decide) (by decide)

/-- C7: a failure of the probe's create call, or of any poll preceded only
by non-final successful polls, sets the reachability flag to true and
returns at once, and the setup gate then proceeds. -/
theorem claim_C7 :
    (∀ (polls : Nat → Except Unit String) (timeout : Nat),
        ping_check (.error ()) polls timeout = ⟨true, "timeout"⟩)
    ∧ (∀ (polls : Nat → Except Unit String) (timeout k : Nat) (s : Nat → String),
        k < timeout → polls k = .error () →
        (∀ i, i < k → polls i = .ok (s i) ∧ s i ≠ "complete") →
        (ping_check (.ok ()) polls timeout).reachable = true)
    ∧ setupReachabilityGate true = .ok () := by
  refine ⟨fun polls timeout => rfl, ?_, rfl⟩
  intro polls timeout k s hk herr hpre
  obtain ⟨st', hst'⟩ := pingLoop_early polls k timeout 0 "timeout" hk
    (by simpa using herr)
    (by
      intro j hj
      obtain ⟨h1, h2⟩ := hpre j hj
      exact ⟨s j, by simpa using h1, h2⟩)
  simp [ping_check, hst']

/-- Witness for C7: a first poll that succeeds with `"running"` followed by
a failing poll yields a reachable verdict, and a failing create call
yields the sentinel payload with the device marked reachable. -/
theorem claim_C7_witness :
    (ping_check (.ok ())
      (fun i => if i = 0 then .ok "running" else .error ()) 5).reachable = true
    ∧ ping_check (.error ()) (fun _ => .ok "complete") 5 = ⟨true, "timeout"⟩ := by
  constructor
  · exact claim_C7.2.1 (fun i => if i = 0 then .ok "running" else .error ()) 5 1
      (fun _ => "running") (by omega) rfl
      (by
        intro i hi
        have h0 : i = 0 := by omega
        subst h0
        exact ⟨rfl, by decide⟩)
  · exact claim_C7.1 (fun _ => .ok "complete") 5

/-- C8: `plugin_get_dut` raises when `os_name` is not `"meraki"`;
otherwise the session class returned is determined exactly by the first
two characters of `product_model` — `"MX"` appliance, `"MS"` switch,
`"MR"` wireless — and every other prefix yields `None`. -/
theorem claim_C8 :
    (∀ os pm : String, os ≠ "meraki" →
      ∃ msg, plugin_get_dut os pm = .error msg)
    ∧ (∀ pm : String,
        (plugin_get_dut "meraki" pm = .ok (some .applianceDut) ↔ pm.take 2 = "MX")
        ∧ (plugin_get_dut "meraki" pm = .ok (some .switchDut) ↔ pm.take 2 = "MS")
        ∧ (plugin_get_dut "meraki" pm = .ok (some .wirelessDut) ↔ pm.take 2 = "MR")
        ∧ (plugin_get_dut "meraki" pm = .ok none ↔
            pm.take 2 ≠ "MX" ∧ pm.take 2 ≠ "MS" ∧ pm.take 2 ≠ "MR")) := by
  constructor
  · intro os pm h
    exact ⟨"Missing required DUT class for device, os_name: " ++ os,
      by simp [plugin_get_dut, h]⟩
  · intro pm
    by_cases h1 : pm.take 2 = "MX"
    · simp [plugin_get_dut, dut_by_product, List.find?, h1]
    · by_cases h2 : pm.take 2 = "MS"
      · simp [plugin_get_dut, dut_by_product, List.find?, h2]
      · by_cases h3 : pm.take 2 = "MR"
        · simp [plugin_get_dut, dut_by_product, List.find?, h3]
        · have e1 : ¬ ("MX" : String) = pm.take 2 := fun hc => h1 hc.symm
          have e2 : ¬ ("MS" : String) = pm.take 2 := fun hc => h2 hc.symm
          have e3 : ¬ ("MR" : String) = pm.take 2 := fun hc => h3 hc.symm
          simp [plugin_get_dut, dut_by_product, List.find?, e1, e2, e3, h1, h2, h3]

/-- Witness for C8: a non-meraki descriptor raises, and concrete models of
each family resolve to the right class (and an unknown model to `None`). -/
theorem claim_C8_witness :
    (∃ msg, plugin_get_dut "eos" "MX84" = .error msg)
    ∧ plugin_get_dut "meraki" "MX84" = .ok (some .applianceDut)
    ∧ plugin_get_dut "meraki" "MS220-8P" = .ok (some .switchDut)
    ∧ plugin_get_dut "meraki" "MR52" = .ok (some .wirelessDut)
    ∧ plugin_get_dut "meraki" "MV12" = .ok none := by
  refine ⟨claim_C8.1 "eos" "MX84" (by decide), ?_, ?_, ?_, ?_⟩
  · exact ((claim_C8.2 "MX84").1).mpr (by decide)
  · exact ((claim_C8.2 "MS220-8P").2.1).mpr (by decide)
  · exact ((claim_C8.2 "MR52").2.2.1).mpr (by decide)
  · exact ((claim_C8.2 "MV12").2.2.2).mpr (by decide)

/-- C9: any port-status record whose speed string is nonempty and neither
`"1 Gbps"` nor `"100 Mbps"` makes the switch interface check raise while
the measurement map is being built, before any per-check result is
produced; an empty speed string converts to speed 0 and the record is
measured normally. -/
theorem claim_C9 :
    (∀ (status_list : List Switch.MsPortStatus)
       (checks : List Switch.InterfaceCheck) (st : Switch.MsPortStatus),
      st ∈ status_list → st.speed ≠ "" → st.speed ≠ "1 Gbps" →
      st.speed ≠ "100 Mbps" →
      ∃ msg, Switch.meraki_switch_check_interfaces status_list checks
        = .error msg)
    ∧ Switch.meraki_to_speed "" = .ok 0
    ∧ (∀ st : Switch.MsPortStatus, st.speed = "" →
        ∃ m, Switch.measurement_from_api st = .ok m ∧ m.speed = 0) := by
  refine ⟨?_, rfl, ?_⟩
  · intro status_list checks st hmem h1 h2 h3
    obtain ⟨msg, hm⟩ := Switch.build_map_port_status_error status_list st hmem
      (Switch.measurement_from_api_error h1 h2 h3)
    exact ⟨msg, by simp [Switch.meraki_switch_check_interfaces, hm]⟩
  · intro st hsp
    refine ⟨⟨st.enabled, st.status = "Connected", 0⟩, ?_, rfl⟩
    simp [Switch.measurement_from_api, Switch.meraki_to_speed, hsp]

/-- Witness for C9: a concrete status list with a `"10 Gbps"` record makes
the whole collection raise, and an empty-speed record measures speed 0. -/
theorem claim_C9_witness :
    (∃ msg, Switch.meraki_switch_check_interfaces
      [⟨"1", true, "Connected", "10 Gbps"⟩] [] = .error msg)
    ∧ (∃ m, Switch.measurement_from_api ⟨"2", true, "Connected", ""⟩
        = .ok m ∧ m.speed = 0) := by
  constructor
  · exact claim_C9.1 [⟨"1", true, "Connected", "10 Gbps"⟩] []
      ⟨"1", true, "Connected", "10 Gbps"⟩ (by decide) (by decide) (by decide)
      (by decide)
  · exact claim_C9.2.2 ⟨"2", true, "Connected", ""⟩ rfl

/-- C10: the per-VLAN appliance check drops `"Vlan"`-prefixed names from
the expected interface set, never filters the measured set, and compares
by strict set equality against the correlator's possibly-empty set; hence
a check whose expected interfaces are all `"Vlan"`-prefixed passes exactly
when the index holds no interface for that VLAN id. -/
theorem claim_C10 :
    ∀ (m : VlanMap) (expd : List String) (v : Nat),
      (Appliance.check_one_vlan v expd m = [.pass (m.defaultGet v)] ↔
        StrSet.seteq (m.defaultGet v)
          (expd.filter (fun n => ¬ pyStartsWith n "Vlan")))
      ∧ ((∀ n ∈ expd, pyStartsWith n "Vlan" = true) →
          (Appliance.check_one_vlan v expd m = [.pass (m.defaultGet v)] ↔
            m.defaultGet v = [])) := by
  intro m expd v
  have hmain : Appliance.check_one_vlan v expd m = [.pass (m.defaultGet v)] ↔
      StrSet.seteq (m.defaultGet v)
        (expd.filter (fun n => ¬ pyStartsWith n "Vlan")) := by
    unfold Appliance.check_one_vlan
    by_cases hc : StrSet.seteq (m.defaultGet v)
        (expd.filter (fun n => ¬ pyStartsWith n "Vlan"))
    · simp [hc]
    · simp [hc]
  refine ⟨hmain, ?_⟩
  intro hall
  have hfil : expd.filter (fun n => ¬ pyStartsWith n "Vlan") = [] := by
    apply List.filter_eq_nil_iff.mpr
    intro a ha
    simp [hall a ha]
  rw [hmain, hfil, StrSet.seteq_nil_iff]

/-- Witness for C10: with an empty index and the expected interfaces all
`"Vlan"`-prefixed, the check passes with an empty measured set. -/
theorem claim_C10_witness :
    Appliance.check_one_vlan 10 ["Vlan10"] []
      = [.pass (VlanMap.defaultGet [] 10)] :=
  ((claim_C10 [] ["Vlan10"] 10).2 (by decide)).mpr (by decide)

/-- C1 counterexample: with a remote operation delivering an empty-list
(falsy) payload, two sequential `api_cache_get` calls with the same key
make two remote invocations — refuting "at most one remote invocation is
ever made per distinct key" and "every later call with the same key
returns the stored payload without a new remote invocation". -/
theorem claim_C1_counterexample :
    (runApiCalls (fun _ => .pylist [])
      [⟨"lldp_status", "devices.getDeviceLldpCdp"⟩,
       ⟨"lldp_status", "devices.getDeviceLldpCdp"⟩] [] 0).2.2 = 2 := rfl

/-- C1 (amended): `api_cache_get` performs the remote call exactly when the
cached entry for the key is missing or falsy (a Python truthiness test,
not a presence test); the fetched payload — falsy included — is stored
unconditionally; a truthy cached payload is returned without a new remote
invocation and without touching the cache; consequently, when the first
fetched payload for a key is truthy, a second call with the same key (any
call name) returns it with no further remote invocation. -/
theorem claim_C1_amended :
    (∀ (cache : ApiCache) (key : String) (remote : PyVal),
      ((api_cache_get cache key remote).didCall = false ↔
        (cache.getPy key).truthy = true)
      ∧ ((cache.getPy key).truthy = true →
          api_cache_get cache key remote = ⟨cache.getPy key, cache, false⟩)
      ∧ ((cache.getPy key).truthy = false →
          api_cache_get cache key remote = ⟨remote, cache.setPy key remote, true⟩))
    ∧ (∀ (remote : Nat → PyVal) (key c1 c2 : String),
        (remote 0).truthy = true →
        runApiCalls remote [⟨key, c1⟩, ⟨key, c2⟩] [] 0
          = ([remote 0, remote 0], ApiCache.setPy [] key (remote 0), 1)) := by
  constructor
  · intro cache key remote
    by_cases ht : (cache.getPy key).truthy = true
    · refine ⟨by simp [api_cache_get, ht], fun _ => by simp [api_cache_get, ht],
        fun hc => ?_⟩
      rw [ht] at hc
      exact Bool.noConfusion hc
    · have hf : (cache.getPy key).truthy = false := by
        cases h : (cache.getPy key).truthy
        · rfl
        · exact absurd h ht
      refine ⟨by simp [api_cache_get, hf], fun hc => ?_,
        fun _ => by simp [api_cache_get, hf]⟩
      exact absurd hc ht
  · intro remote key c1 c2 htr
    have ht0 : (ApiCache.getPy [] key).truthy = false := rfl
    have hset : ApiCache.setPy [] key (remote 0) = [(key, remote 0)] := rfl
    have hget1 : ApiCache.getPy [(key, remote 0)] key = remote 0 := by
      simp [ApiCache.getPy, List.find?]
    have ht1 : (ApiCache.getPy [(key, remote 0)] key).truthy = true := by
      rw [hget1]; exact htr
    simp [runApiCalls, api_cache_get, ht0, hset, ht1, hget1, htr]

/-- Witness for C1 (amended): a truthy payload fetched for a key is
memoized — the second call returns it without a second remote invocation. -/
theorem claim_C1_witness :
    runApiCalls (fun _ => .pyint 7)
      [⟨"orgs", "organizations.getOrganizations"⟩, ⟨"orgs", "other.call"⟩] [] 0
      = ([.pyint 7, .pyint 7], ApiCache.setPy [] "orgs" (.pyint 7), 1) :=
  claim_C1_amended.2 (fun _ => .pyint 7) "orgs" "organizations.getOrganizations"
    "other.call" rfl

/-- C4 counterexample: with the create call succeeding and every poll
returning status `"ready"`, the probe ends with final status `"ready"` and
the reachability flag is still set to true — refuting "the flag is set to
true exactly when the ping job's final status equals `"complete"`". -/
theorem claim_C4_counterexample :
    ping_check (.ok ()) (fun _ => .ok "ready") 5 = ⟨true, "ready"⟩
    ∧ ("ready" : String) ≠ "complete" := by
  exact ⟨rfl, by decide⟩

/-- C4 (amended): when the create call and all polls succeed, the
reachability flag is true exactly when the final status is `"complete"`
or `"ready"`; the setup gate raises a `RuntimeError` whenever the flag is
false, in particular for a probe whose polls end with status `"failed"`. -/
theorem claim_C4_amended :
    (∀ (polls : Nat → Except Unit String) (s : Nat → String) (timeout : Nat),
      (∀ i, polls i = .ok (s i)) →
      ((ping_check (.ok ()) polls timeout).reachable = true ↔
        ((ping_check (.ok ()) polls timeout).status = "complete"
          ∨ (ping_check (.ok ()) polls timeout).status = "ready")))
    ∧ (∀ b : Bool, b = false →
        setupReachabilityGate b = .error "Device fails reachability ping-check")
    ∧ setupAfterInventory (.ok ()) (fun _ => .ok "failed") 5
        = .error "Device fails reachability ping-check" := by
  refine ⟨?_, ?_, rfl⟩
  · intro polls s timeout hok
    obtain ⟨st', hst'⟩ := pingLoop_finished polls s hok timeout 0 "timeout"
    simp [ping_check, hst']
  · intro b hb
    subst hb
    rfl

/-- Witness for C4 (amended): concretized at the all-`"failed"` poll
sequence, where the flag comes out false and the status is `"failed"`. -/
theorem claim_C4_witness :
    ((ping_check (.ok ()) (fun _ => .ok "failed") 5).reachable = true ↔
      ((ping_check (.ok ()) (fun _ => .ok "failed") 5).status = "complete"
        ∨ (ping_check (.ok ()) (fun _ => .ok "failed") 5).status = "ready"))
    ∧ setupReachabilityGate false
        = .error "Device fails reachability ping-check" :=
  ⟨claim_C4_amended.1 (fun _ => .ok "failed") (fun _ => "failed") 5 (fun _ => rfl),
    claim_C4_amended.2.1 false rfl⟩

/-- C2 counterexample: in the switch correlator a *disabled* trunk port
with `allowedVlans = "all"` is still expanded to the caller-supplied
expected-VLAN-id set (the `enabled` flag is never consulted) — refuting
the "if and only if that port is enabled" condition. -/
theorem claim_C2_counterexample :
    ((Switch.correlate_vlans_to_ports
        [⟨"5", false, .trunk, 99, .all⟩] [10, 20, 30]).2.get? 10
      = some ["5"])
    ∧ (⟨"5", false, .trunk, 99, .all⟩ : Switch.MsPort).enabled = false := by
  exact ⟨rfl, rfl⟩

/-- C2 (amended): in the appliance correlator, an enabled trunk port with
`allowedVlans = "all"` has its interface added to each expected VLAN id
and, beyond those, only to its truthy native/assigned VLAN id; in the
switch correlator, a trunk port with `allowedVlans = "all"` has its
interface added to exactly the expected VLAN ids *regardless of the
enabled flag*, except that VLAN 1 is removed by the post-pass when the
port is disabled. -/
theorem claim_C2_amended :
    (∀ (expd : List Nat) (p : Appliance.MxPort),
      p.type = .trunk → p.allowedVlans = .all → p.enabled = true →
      ∃ mf, Appliance.correlate_vlans_to_ports [p] expd = some mf
        ∧ ∀ w, mf.get? w =
            if w ∈ expd ∨ p.truthyVlan = some w then some [p.ifName] else none)
    ∧ (∀ (expd : List Nat) (p : Switch.MsPort),
      p.type = .trunk → p.allowedVlans = .all →
      ∀ w, (Switch.correlate_vlans_to_ports [p] expd).2.get? w =
        if w ∈ expd ∧ ¬ (w = 1 ∧ p.enabled = false) then some [p.portId]
        else none) := by
  constructor
  · intro expd p ht ha he
    have hbase : ∀ w, (Appliance.nativeAdd [] p).get? w =
        if p.truthyVlan = some w then some [p.ifName] else none := by
      intro w
      cases hv : p.truthyVlan with
      | none => simp [Appliance.nativeAdd, hv, VlanMap.get?]
      | some v =>
        simp only [Appliance.nativeAdd, hv]
        rw [VlanMap.get?_addIf]
        by_cases hw : w = v
        · subst hw
          simp [VlanMap.defaultGet, VlanMap.get?, StrSet.addElem]
        · have hvw : ¬ (some v = some w) := fun hc => hw (Option.some_inj.mp hc).symm
          simp [hw, hvw, VlanMap.get?]
    have hu : Appliance.is_unused_port p = false := by
      simp [Appliance.is_unused_port, he]
    have htr : Appliance.trunkVlanIds expd p = some expd := by
      simp [Appliance.trunkVlanIds, ha, he]
    have hstep : Appliance.correlateStep expd [] p
        = some ((Appliance.nativeAdd [] p).addAll expd p.ifName) := by
      simp [Appliance.correlateStep, hu, ht, htr]
    have hm1 : ∀ w, ((Appliance.nativeAdd [] p).addAll expd p.ifName).get? w =
        if w ∈ expd ∨ p.truthyVlan = some w then some [p.ifName] else none := by
      intro w
      rw [VlanMap.get?_addAll]
      by_cases hw : w ∈ expd
      · rw [if_pos hw, if_pos (Or.inl hw)]
        rw [VlanMap.defaultGet, hbase w]
        by_cases hv : p.truthyVlan = some w
        · rw [if_pos hv]
          simp [StrSet.addElem]
        · rw [if_neg hv]
          simp [StrSet.addElem]
      · rw [if_neg hw, hbase w]
        by_cases hv : p.truthyVlan = some w
        · rw [if_pos hv, if_pos (Or.inr hv)]
        · rw [if_neg hv, if_neg (by tauto)]
    have hpre : Appliance.correlatePre [p] expd
        = some ((Appliance.nativeAdd [] p).addAll expd p.ifName) := by
      simp only [Appliance.correlatePre, List.foldlM_cons, hstep,
        List.foldlM_nil]
      rfl
    have hpp : Appliance.vlan1PostPass [p]
        ((Appliance.nativeAdd [] p).addAll expd p.ifName)
        = (Appliance.nativeAdd [] p).addAll expd p.ifName := by
      cases hg : ((Appliance.nativeAdd [] p).addAll expd p.ifName).get? 1 with
      | none => simp [Appliance.vlan1PostPass, hg]
      | some s =>
        have hs : s = [p.ifName] := by
          have h1 := hm1 1
          rw [hg] at h1
          by_cases hc : (1 ∈ expd ∨ p.truthyVlan = some 1)
          · rw [if_pos hc] at h1
            exact Option.some_inj.mp h1.symm |>.symm
          · rw [if_neg hc] at h1
            exact Option.noConfusion h1
        subst hs
        have hne : ¬ ([p.ifName] : StrSet) = [] := by
          simp
        have hflt : [p].filter
            (fun q => decide (q.ifName ∈ ([p.ifName] : StrSet)
              ∧ q.enabled = false)) = [] := by
          simp [List.filter, he]
        simp only [Appliance.vlan1PostPass, hg]
        rw [if_neg hne, hflt]
        simp
    refine ⟨(Appliance.nativeAdd [] p).addAll expd p.ifName, ?_, hm1⟩
    rw [Appliance.correlate_vlans_to_ports, hpre]
    simp [hpp]
  · intro expd p ht ha w
    have hstep : (Switch.correlateStep expd (∅, []) p).2
        = VlanMap.addAll [] expd p.portId := by
      simp [Switch.correlateStep, ht, ha]
    have hm1 : ∀ w, (VlanMap.addAll [] expd p.portId).get? w =
        if w ∈ expd then some [p.portId] else none := by
      intro w
      rw [VlanMap.get?_addAll]
      by_cases hw : w ∈ expd
      · rw [if_pos hw, if_pos hw]
        simp [VlanMap.defaultGet, VlanMap.get?, StrSet.addElem]
      · rw [if_neg hw, if_neg hw]
        rfl
    have hpre : (Switch.correlatePre [p] expd).2
        = VlanMap.addAll [] expd p.portId := by
      simp only [Switch.correlatePre, List.foldl_cons, List.foldl_nil]
      exact hstep
    have hfin : Switch.correlate_vlans_to_ports [p] expd
        = ((Switch.correlatePre [p] expd).1,
            Switch.vlan1PostPass [p] (VlanMap.addAll [] expd p.portId)) := by
      rw [Switch.correlate_vlans_to_ports, hpre]
    rw [hfin]
    cases hg : (VlanMap.addAll [] expd p.portId).get? 1 with
    | none =>
      have h1e : ¬ (1 ∈ expd) := by
        intro hc
        have := hm1 1
        rw [hg, if_pos hc] at this
        exact Option.noConfusion this
      simp only [Switch.vlan1PostPass, hg]
      rw [hm1 w]
      by_cases hw : w ∈ expd
      · have hw1 : ¬ (w = 1 ∧ p.enabled = false) := by
          rintro ⟨rfl, _⟩
          exact h1e hw
        rw [if_pos hw, if_pos ⟨hw, hw1⟩]
      · rw [if_neg hw, if_neg (by tauto)]
    | some s =>
      have h1e : 1 ∈ expd := by
        by_contra hc
        have := hm1 1
        rw [hg, if_neg hc] at this
        exact Option.noConfusion this
      have hs : s = [p.portId] := by
        have := hm1 1
        rw [hg, if_pos h1e] at this
        exact Option.some_inj.mp this
      subst hs
      have hne : ¬ ([p.portId] : StrSet) = [] := by simp
      cases hen : p.enabled with
      | true =>
        have hflt : [p].filter
            (fun q => decide (q.portId ∈ ([p.portId] : StrSet)
              ∧ q.enabled = false)) = [] := by
          simp [List.filter, hen]
        simp only [Switch.vlan1PostPass, hg]
        rw [if_neg hne, hflt]
        simp only [List.length_nil]
        rw [if_neg (by simp)]
        rw [hm1 w]
        by_cases hw : w ∈ expd
        · rw [if_pos hw, if_pos ⟨hw, by simp [hen]⟩]
        · rw [if_neg hw, if_neg (by tauto)]
      | false =>
        have hflt : [p].filter
            (fun q => decide (q.portId ∈ ([p.portId] : StrSet)
              ∧ q.enabled = false)) = [p] := by
          simp [List.filter, hen]
        simp only [Switch.vlan1PostPass, hg]
        rw [if_neg hne, hflt]
        rw [if_pos (by simp)]
        rw [VlanMap.get?_erase]
        by_cases hw1 : w = 1
        · subst hw1
          rw [if_pos rfl, if_neg (by simp [hen])]
        · rw [if_neg hw1, hm1 w]
          by_cases hw : w ∈ expd
          · rw [if_pos hw, if_pos ⟨hw, by tauto⟩]
          · rw [if_neg hw, if_neg (by tauto)]

/-- Witness for C2 (amended): the appliance part applied to an enabled
`"all"` trunk with native VLAN 99 and expected set `[10, 20]`, and the
switch part applied to a disabled `"all"` trunk. -/
theorem claim_C2_witness :
    (∃ mf, Appliance.correlate_vlans_to_ports
        [⟨3, true, .trunk, some 99, .all, false⟩] [10, 20] = some mf
      ∧ ∀ w, mf.get? w =
          if w ∈ [10, 20] ∨
              (⟨3, true, .trunk, some 99, .all, false⟩ : Appliance.MxPort).truthyVlan
                = some w
            then some [(⟨3, true, .trunk, some 99, .all, false⟩ : Appliance.MxPort).ifName]
            else none)
    ∧ (Switch.correlate_vlans_to_ports
        [⟨"5", false, .trunk, 99, .all⟩] [10, 20, 30]).2.get? 20
      = if 20 ∈ [10, 20, 30] ∧ ¬ ((20 : Nat) = 1 ∧
          (⟨"5", false, .trunk, 99, .all⟩ : Switch.MsPort).enabled = false)
        then some [(⟨"5", false, .trunk, 99, .all⟩ : Switch.MsPort).portId]
        else none :=
  ⟨claim_C2_amended.1 [10, 20] ⟨3, true, .trunk, some 99, .all, false⟩ rfl rfl rfl,
    claim_C2_amended.2 [10, 20, 30] ⟨"5", false, .trunk, 99, .all⟩ rfl rfl 20⟩

/-- C3 counterexample: in the appliance correlator, two access ports on
VLAN 1 with exactly one of them enabled leave VLAN 1 mapped to *both*
interfaces — not "exactly that one enabled interface" — because the
appliance unused-port rule only skips disabled trunk ports that drop
untagged traffic, so the disabled access port still contributes, and the
post-pass only deletes VLAN 1 when *all* its interfaces are disabled. -/
theorem claim_C3_counterexample :
    (Appliance.correlate_vlans_to_ports
      [⟨1, false, .access, some 1, .istrange [], false⟩,
       ⟨2, true, .access, some 1, .istrange [], false⟩] []).map
        (fun m => m.get? 1)
      = some (some ["1", "2"])
    ∧ ¬ StrSet.seteq ["1", "2"] ["2"] := by
  constructor
  · decide
  · decide

/-- C3 (amended): for both correlators, when the port records carry
pairwise-distinct interface identifiers and every interface mapped to
VLAN 1 belongs only to disabled ports, the post-pass removes VLAN 1 from
the index.  For two access ports assigned VLAN 1: with both disabled
neither correlator's index contains VLAN 1; with exactly one enabled the
switch correlator maps VLAN 1 to exactly the enabled interface, while the
appliance correlator maps VLAN 1 to both interfaces (its unused-port rule
skips only disabled trunks that drop untagged traffic). -/
theorem claim_C3_amended :
    (∀ (ports : List Appliance.MxPort) (expd : List Nat) (m : VlanMap),
      Appliance.correlatePre ports expd = some m →
      (ports.map Appliance.MxPort.ifName).Nodup →
      (∀ p ∈ ports, p.ifName ∈ m.defaultGet 1 → p.enabled = false) →
      ∃ mf, Appliance.correlate_vlans_to_ports ports expd = some mf
        ∧ mf.get? 1 = none)
    ∧ (∀ (ports : List Switch.MsPort) (expd : List Nat),
      (ports.map Switch.MsPort.portId).Nodup →
      (∀ p ∈ ports,
        p.portId ∈ (Switch.correlatePre ports expd).2.defaultGet 1 →
        p.enabled = false) →
      (Switch.correlate_vlans_to_ports ports expd).2.get? 1 = none)
    ∧ (Appliance.correlate_vlans_to_ports
        [⟨1, false, .access, some 1, .istrange [], false⟩,
         ⟨2, false, .access, some 1, .istrange [], false⟩] []).map
          (fun m => m.get? 1) = some none
    ∧ (Appliance.correlate_vlans_to_ports
        [⟨1, false, .access, some 1, .istrange [], false⟩,
         ⟨2, true, .access, some 1, .istrange [], false⟩] []).map
          (fun m => m.get? 1) = some (some ["1", "2"])
    ∧ (Switch.correlate_vlans_to_ports
        [⟨"1", false, .access, 1, .istrange []⟩,
         ⟨"2", false, .access, 1, .istrange []⟩] []).2.get? 1 = none
    ∧ (Switch.correlate_vlans_to_ports
        [⟨"1", false, .access, 1, .istrange []⟩,
         ⟨"2", true, .access, 1, .istrange []⟩] []).2.get? 1
        = some ["2"] := by
  refine ⟨?_, ?_, by decide, by decide, by decide, by decide⟩
  · intro ports expd m hpre hnd hdis
    refine ⟨Appliance.vlan1PostPass ports m, ?_, ?_⟩
    · rw [Appliance.correlate_vlans_to_ports, hpre]
      rfl
    · cases hg : m.get? 1 with
      | none => simp [Appliance.vlan1PostPass, hg]
      | some s =>
        have hinv : ∀ w s', (VlanMap.get? [] w) = some s' → s' ≠ [] := by
          intro w s' hc
          exact Option.noConfusion hc
        have hinvnd : ∀ w s', (VlanMap.get? [] w) = some s' → s'.Nodup := by
          intro w s' hc
          exact Option.noConfusion hc
        have hs_ne : s ≠ [] :=
          Appliance.correlateFold_nonnil ports expd [] m hpre hinv 1 s hg
        have hs_nd : s.Nodup :=
          Appliance.correlateFold_nodup ports expd [] m hpre hinvnd 1 s hg
        have hsub : ∀ x ∈ s, ∃ p ∈ ports, p.ifName = x := by
          intro x hx
          have hxd : x ∈ m.defaultGet 1 := by
            rw [VlanMap.defaultGet, hg]
            exact hx
          rcases Appliance.correlateFold_mem ports expd [] m hpre 1 x hxd
            with h0 | h1
          · exact absurd h0 (by simp [VlanMap.defaultGet, VlanMap.get?])
          · exact h1
        have hdis' : ∀ p ∈ ports, p.ifName ∈ s → p.enabled = false := by
          intro p hp hmem
          exact hdis p hp (by rw [VlanMap.defaultGet, hg]; exact hmem)
        have hcount := length_filter_eq_card ports Appliance.MxPort.ifName
          (fun p => p.enabled) s hnd hs_nd hsub hdis'
        simp only [Appliance.vlan1PostPass, hg]
        rw [if_neg hs_ne, if_pos hcount, VlanMap.get?_erase]
        simp
  · intro ports expd hnd hdis
    cases hg : (Switch.correlatePre ports expd).2.get? 1 with
    | none =>
      simp [Switch.correlate_vlans_to_ports, Switch.vlan1PostPass, hg]
    | some s =>
      have hinv : ∀ w s', (VlanMap.get? ((∅ : Finset Nat), ([] : VlanMap)).2 w) = some s' →
          s' ≠ [] := by
        intro w s' hc
        exact Option.noConfusion hc
      have hinvnd : ∀ w s', (VlanMap.get? ((∅ : Finset Nat), ([] : VlanMap)).2 w) = some s' →
          s'.Nodup := by
        intro w s' hc
        exact Option.noConfusion hc
      have hs_ne : s ≠ [] :=
        Switch.correlateFoldMs_nonnil ports expd (∅, []) hinv 1 s hg
      have hs_nd : s.Nodup :=
        Switch.correlateFoldMs_nodup ports expd (∅, []) hinvnd 1 s hg
      have hsub : ∀ x ∈ s, ∃ p ∈ ports, p.portId = x := by
        intro x hx
        have hxd : x ∈ (Switch.correlatePre ports expd).2.defaultGet 1 := by
          rw [VlanMap.defaultGet, hg]
          exact hx
        rcases Switch.correlateFoldMs_mem ports expd (∅, []) 1 x hxd with h0 | h1
        · exact absurd h0 (by simp [VlanMap.defaultGet, VlanMap.get?])
        · exact h1
      have hdis' : ∀ p ∈ ports, p.portId ∈ s → p.enabled = false := by
        intro p hp hmem
        exact hdis p hp (by rw [VlanMap.defaultGet, hg]; exact hmem)
      have hcount := length_filter_eq_card ports Switch.MsPort.portId
        (fun p => p.enabled) s hnd hs_nd hsub hdis'
      rw [Switch.correlate_vlans_to_ports]
      simp only [Switch.vlan1PostPass, hg]
      rw [if_neg hs_ne, if_pos hcount, VlanMap.get?_erase]
      simp

/-- Witness for C3 (amended): the general removal statements applied to a
concrete single enabled access port on VLAN 5 (whose VLAN-1 set is empty,
so the disabledness hypothesis holds vacuously). -/
theorem claim_C3_witness :
    (∃ mf, Appliance.correlate_vlans_to_ports
        [⟨1, true, .access, some 5, .istrange [], false⟩] [] = some mf
      ∧ mf.get? 1 = none)
    ∧ (Switch.correlate_vlans_to_ports
        [⟨"1", true, .access, 5, .istrange []⟩] []).2.get? 1 = none :=
  ⟨claim_C3_amended.1 [⟨1, true, .access, some 5, .istrange [], false⟩] []
      [(5, ["1"])] (by decide) (by decide)
      (by
        intro p hp hmem
        have h0 : VlanMap.defaultGet [(5, ["1"])] 1 = [] := rfl
        rw [h0] at hmem
        exact absurd hmem (List.not_mem_nil _)),
    claim_C3_amended.2.1 [⟨"1", true, .access, 5, .istrange []⟩] []
      (by decide)
      (by
        intro p hp hmem
        have h0 : (Switch.correlatePre
            [⟨"1", true, .access, 5, .istrange []⟩] []).2.defaultGet 1 = [] := by
          decide
        rw [h0] at hmem
        exact absurd hmem (List.not_mem_nil _))⟩

end NetcamAioMeraki
